import Mathlib

/-!
Shallow embedding of the visible slice of the porepy repository:
* `src/porepy/numerics/fv/source.py` — the `Integral` source-term discretizer
  and its multi-grid variant `IntegralMultiDim`;
* `examples/example4/test_mpfa_varying_k_surface_1.py` — the convergence
  harness (`rhs`, `solution`, `permeability`, `add_data`, `error_p`);
* `test/unit/test_fracture_center.py` — unit tests of the fracture centroid
  (the `Fracture` class itself is not among the source files, so its center
  computation is modelled from the specification).

Numpy arrays are embedded as Lean lists; a scipy CSC sparse matrix is a
shape plus a list of explicit (row, column, value) entries, so that the
matrix produced by `sps.csc_matrix((n, n))` is the one with no entries.
Real-valued floating point data is idealised over `ℝ` (over `ℚ` where the
computation is purely rational, to keep witnesses decidable).
-/

/-- A grid, as consumed by the visible code: cell count, face count,
cell centers (the 3×N numpy array becomes a list of N coordinate triples),
cell volumes, face centers, and the indices returned by
`get_all_boundary_faces()`. -/
structure Grid (α : Type) where
  num_cells : Nat
  num_faces : Nat
  cell_centers : List (α × α × α)
  cell_volumes : List α
  face_centers : List (α × α × α)
  boundary_faces : List Nat

/-- A scipy CSC sparse matrix: its shape and its stored (row, col, value)
entries.  `sps.csc_matrix((n, n))` stores no entries. -/
structure CscMatrix (α : Type) where
  rows : Nat
  cols : Nat
  entries : List (Nat × Nat × α)

/-- `sps.csc_matrix(shape)`: the all-zero sparse matrix of the given shape. -/
def sps_csc_matrix (α : Type) (shape : Nat × Nat) : CscMatrix α :=
  ⟨shape.1, shape.2, []⟩

/-- The mathematical entry of a sparse matrix at (i, j): the sum of stored
values at that position (0 when nothing is stored there). -/
def CscMatrix.entry [AddMonoid α] (m : CscMatrix α) (i j : Nat) : α :=
  ((m.entries.filter (fun t => t.1 == i && t.2.1 == j)).map (fun t => t.2.2)).sum

/-- The single-grid source discretizer `Integral(physics)`. -/
structure Integral where
  physics : String

/-- The per-grid parameter bundle (`porepy.params.data.Parameters`), keyed by
a physics label; a lookup of an unset label raises (here: `none`). -/
structure Parameters (α : Type) where
  source : String → Option (List α)
  tensor : String → Option (List α)
  bc_faces : String → Option (List Nat)
  bc_labels : String → Option (List String)
  bc_val : String → Option (List α)

/-- `Parameters.get_source(discretizer)`: look the source up under the
discretizer's physics label. -/
def Parameters.get_source (p : Parameters α) (solver : Integral) : Option (List α) :=
  p.source solver.physics

/-- The `data` dictionary handed to `matrix_rhs`: it carries the parameter
bundle under the key `param`. -/
structure Data (α : Type) where
  param : Parameters α

/-- `Integral.ndof(g)`: one degree of freedom per cell. -/
def Integral.ndof (_self : Integral) (g : Grid α) : Nat :=
  g.num_cells

/-- `Integral.matrix_rhs(g, data)`: fetch the source vector for this physics
label, build the zero CSC matrix of shape (num_cells, num_cells), assert the
source has one value per cell, and return the pair.  A missing label raises a
`KeyError`; a failed assertion raises with the message from the code. -/
def Integral.matrix_rhs (self : Integral) (g : Grid α) (data : Data α) :
    Except String (CscMatrix α × List α) :=
  match data.param.get_source self with
  | none => .error "KeyError"
  | some sources =>
    let lhs := sps_csc_matrix α (g.num_cells, g.num_cells)
    if sources.length = g.num_cells then
      .ok (lhs, sources)
    else
      .error "There should be one soure value for each cell"

/-- The multi-grid variant `IntegralMultiDim(physics)`. -/
structure IntegralMultiDim where
  physics : String

/-- `IntegralMultiDim.ndof(gb)`: the Python body accumulates
`ndof += g.num_cells` over the bucket's (grid, data) pairs into a local
variable but contains no `return` statement, so the call returns `None`
(here: `none`); the computed sum is discarded. -/
def IntegralMultiDim.ndof (_self : IntegralMultiDim)
    (gb : List (Grid α × Data α)) : Option Nat :=
  let _ndof := gb.foldl (fun acc p => acc + p.1.num_cells) 0
  none

/-- Modelled from the spec: the `Fracture` class of `porepy.fracs.fractures`
is not among the source files (only `test/unit/test_fracture_center.py` is),
so its `center` attribute is taken from the specification: the simple
arithmetic mean of the vertex coordinates along each axis — for a vertex
matrix of shape 3×M, the centroid is the mean over the M columns, returned
as a 3×1 column.  The 3×M matrix is a list of M coordinate triples and the
3×1 column a single triple. -/
def fractureCenter (pts : List (ℚ × ℚ × ℚ)) : ℚ × ℚ × ℚ :=
  ((pts.map (fun p => p.1)).sum / pts.length,
   (pts.map (fun p => p.2.1)).sum / pts.length,
   (pts.map (fun p => p.2.2)).sum / pts.length)

/-! ## The convergence harness `test_mpfa_varying_k_surface_1.py` -/

/-- `rhs(x, y, z)` — the manufactured right-hand-side density. -/
noncomputable def rhs (x y z : ℝ) : ℝ :=
  8 * z * (125 * x ^ 2 + 200 * y ^ 2 + 425 * z ^ 2 + 2)

/-- `solution(x, y, z)` — the manufactured analytic solution. -/
noncomputable def solution (x y z : ℝ) : ℝ :=
  x ^ 2 * z + 4 * y ^ 2 * Real.sin (Real.pi * y) - 3 * z ^ 3

/-- `permeability(x, y, z)` — the varying permeability field. -/
noncomputable def permeability (x y z : ℝ) : ℝ :=
  1 + 100 * (x ^ 2 + y ^ 2 + z ^ 2)

/-- The source vector built by `add_data`: `rhs` evaluated at each cell
center, multiplied elementwise by the cell volumes
(`g.cell_volumes * source` in numpy). -/
noncomputable def add_data_source (g : Grid ℝ) : List ℝ :=
  let src := g.cell_centers.map (fun pt => rhs pt.1 pt.2.1 pt.2.2)
  List.zipWith (fun v s => v * s) g.cell_volumes src

/-- The boundary labels built by `add_data`: `['dir'] * bound_faces.size`. -/
def add_data_labels (g : Grid α) : List String :=
  List.replicate g.boundary_faces.length "dir"

/-- The boundary-value vector built by `add_data`: start from
`np.zeros(g.num_faces)` and fancy-assign, at the boundary-face indices, the
manufactured solution evaluated at the corresponding face centers.  The
fancy assignment is a left fold of point updates (later duplicates win, as
in numpy). -/
noncomputable def add_data_bc_val (g : Grid ℝ) : List ℝ :=
  let bound_faces := g.boundary_faces
  let vals := bound_faces.map (fun i =>
    let pt := g.face_centers.getD i (0, 0, 0)
    solution pt.1 pt.2.1 pt.2.2)
  (List.zip bound_faces vals).foldl (fun bc iv => bc.set iv.1 iv.2)
    (List.replicate g.num_faces 0)

/-- `add_data(g)`: populate the parameter bundle under the label `"flow"`
with the permeability tensor diagonal, the volume-weighted source, the
Dirichlet boundary labels and the boundary values. -/
noncomputable def add_data (g : Grid ℝ) : Data ℝ :=
  let kxx := g.cell_centers.map (fun pt => permeability pt.1 pt.2.1 pt.2.2)
  { param :=
    { source := fun l => if l = "flow" then some (add_data_source g) else none
      tensor := fun l => if l = "flow" then some kxx else none
      bc_faces := fun l => if l = "flow" then some g.boundary_faces else none
      bc_labels := fun l => if l = "flow" then some (add_data_labels g) else none
      bc_val := fun l => if l = "flow" then some (add_data_bc_val g) else none } }

/-- `error_p(g, p)`:
`np.sqrt(np.sum(np.power(np.abs(p - sol), 2) * g.cell_volumes))` where `sol`
is the manufactured solution at the cell centers. -/
noncomputable def error_p (g : Grid ℝ) (p : List ℝ) : ℝ :=
  let sol := g.cell_centers.map (fun pt => solution pt.1 pt.2.1 pt.2.2)
  Real.sqrt ((List.zipWith (fun a b => a * b)
    ((List.zipWith (fun a b => a - b) p sol).map (fun d => |d| ^ 2))
    g.cell_volumes).sum)

/-! ## Helper lemmas -/

/-- Shared helper: on a provided source of the right length, `matrix_rhs`
returns the zero matrix and the source unchanged. -/
theorem matrix_rhs_ok_of (self : Integral) (g : Grid α) (data : Data α)
    (s : List α) (hs : data.param.get_source self = some s)
    (hlen : s.length = g.num_cells) :
    self.matrix_rhs g data =
      .ok (sps_csc_matrix α (g.num_cells, g.num_cells), s) := by
  unfold Integral.matrix_rhs
  rw [hs]
  simp [hlen]

/-- The zero CSC matrix has entry 0 everywhere. -/
theorem sps_csc_matrix_entry [AddMonoid α] (shape : Nat × Nat) (i j : Nat) :
    (sps_csc_matrix α shape).entry i j = 0 := rfl

/-! ## Concrete example data for witnesses -/

def exGrid2 : Grid ℚ := ⟨2, 0, [], [], [], []⟩

def exGrid5 : Grid ℚ := ⟨5, 0, [], [], [], []⟩

def exParams2 : Parameters ℚ :=
  ⟨fun l => if l = "flow" then some [3, 5] else none,
   fun _ => none, fun _ => none, fun _ => none, fun _ => none⟩

def exData2 : Data ℚ := ⟨exParams2⟩

def exParamsShort : Parameters ℚ :=
  ⟨fun l => if l = "flow" then some [3] else none,
   fun _ => none, fun _ => none, fun _ => none, fun _ => none⟩

def exDataShort : Data ℚ := ⟨exParamsShort⟩

def exBucket5 : List (Grid ℚ × Data ℚ) := [(exGrid5, exData2)]

/-! ## Claims -/

/-- C1: for every grid `g` and data whose parameter bundle provides a source
vector `s` with `len(s) == g.num_cells`, `Integral.matrix_rhs(g, data)`
returns a pair `(lhs, rhs)` where `lhs` is a sparse zero matrix of shape
`(g.num_cells, g.num_cells)` and `rhs` is the source vector `s` unchanged. -/
theorem integral_matrix_rhs_passthrough [AddMonoid α] (self : Integral)
    (g : Grid α) (data : Data α) (s : List α)
    (hs : data.param.get_source self = some s)
    (hlen : s.length = g.num_cells) :
    ∃ lhs : CscMatrix α, self.matrix_rhs g data = .ok (lhs, s) ∧
      lhs.rows = g.num_cells ∧ lhs.cols = g.num_cells ∧
      ∀ i j, lhs.entry i j = 0 :=
  ⟨_, matrix_rhs_ok_of self g data s hs hlen, rfl, rfl,
    fun i j => sps_csc_matrix_entry (g.num_cells, g.num_cells) i j⟩

/-- Witness for C1 at a concrete grid with 2 cells and source `[3, 5]`. -/
theorem integral_matrix_rhs_passthrough_witness :
    (exData2.param.get_source ⟨"flow"⟩ = some [3, 5] ∧
      ([3, 5] : List ℚ).length = exGrid2.num_cells) ∧
    ∃ lhs : CscMatrix ℚ,
      (Integral.mk "flow").matrix_rhs exGrid2 exData2 = .ok (lhs, [3, 5]) ∧
      lhs.rows = exGrid2.num_cells ∧ lhs.cols = exGrid2.num_cells ∧
      ∀ i j, lhs.entry i j = 0 :=
  ⟨⟨rfl, rfl⟩,
    integral_matrix_rhs_passthrough (Integral.mk "flow") exGrid2 exData2 [3, 5] rfl rfl⟩

/-- C2: for every grid `g` and data whose parameter bundle provides a source
vector `s` with `len(s) != g.num_cells`, `Integral.matrix_rhs(g, data)` fails
with the dimension-mismatch assertion and returns no partial result. -/
theorem integral_matrix_rhs_mismatch (self : Integral)
    (g : Grid α) (data : Data α) (s : List α)
    (hs : data.param.get_source self = some s)
    (hlen : s.length ≠ g.num_cells) :
    self.matrix_rhs g data =
      .error "There should be one soure value for each cell" := by
  unfold Integral.matrix_rhs
  rw [hs]
  simp [hlen]

/-- Witness for C2 at a concrete grid with 2 cells and source `[3]`. -/
theorem integral_matrix_rhs_mismatch_witness :
    (exDataShort.param.get_source ⟨"flow"⟩ = some [3] ∧
      ([3] : List ℚ).length ≠ exGrid2.num_cells) ∧
    (Integral.mk "flow").matrix_rhs exGrid2 exDataShort =
      .error "There should be one soure value for each cell" :=
  ⟨⟨rfl, by decide⟩,
    integral_matrix_rhs_mismatch (Integral.mk "flow") exGrid2 exDataShort [3]
      rfl (by decide)⟩

/-- C3: the fracture centroid is the arithmetic mean of the vertex
coordinates; for the vertices (0,0,-1), (2,2,-1), (2,2,1), (0,0,1) the
computed center equals (1,1,0). -/
theorem fracture_center_concrete :
    fractureCenter [(0, 0, -1), (2, 2, -1), (2, 2, 1), (0, 0, 1)] =
      ((1 : ℚ), (1 : ℚ), (0 : ℚ)) := by
  norm_num [fractureCenter]

/-- C4: `IntegralMultiDim.ndof(gb)` is claimed to return the sum of
`num_cells` over the bucket's grids, but the Python body accumulates the sum
into a local variable and has no `return` statement: on a bucket holding one
5-cell grid the sum it computes is 5, yet the call returns `None`. -/
theorem integralMultiDim_ndof_no_return :
    (IntegralMultiDim.mk "flow").ndof exBucket5 = none ∧
      exBucket5.foldl (fun acc p => acc + p.1.num_cells) 0 = 5 :=
  ⟨rfl, rfl⟩

/-- C9: the fracture centroid is invariant under any permutation of the
vertex columns. -/
theorem fractureCenter_perm_invariant (l l' : List (ℚ × ℚ × ℚ))
    (h : l.Perm l') : fractureCenter l = fractureCenter l' := by
  unfold fractureCenter
  rw [h.length_eq, (h.map _).sum_eq, (h.map _).sum_eq, (h.map _).sum_eq]

/-- Witness for C9 on a concrete permutation of three vertices. -/
theorem fractureCenter_perm_invariant_witness :
    ([((0 : ℚ), (0 : ℚ), (-1 : ℚ)), (2, 2, -1), (2, 2, 1)].Perm
        [(2, 2, 1), (0, 0, -1), (2, 2, -1)]) ∧
      fractureCenter [(0, 0, -1), (2, 2, -1), (2, 2, 1)] =
        fractureCenter [(2, 2, 1), (0, 0, -1), (2, 2, -1)] :=
  ⟨by decide, fractureCenter_perm_invariant _ _ (by decide)⟩

/-- C10: `Integral.ndof(g)` returns exactly `g.num_cells`, independent of the
physics label passed at construction. -/
theorem integral_ndof_eq_num_cells (physics : String) (g : Grid α) :
    (Integral.mk physics).ndof g = g.num_cells :=
  rfl

/-! ## C5: the source is volume-weighted by the caller, not the discretizer -/

noncomputable def exGridC5 : Grid ℝ := ⟨1, 0, [(1, 2, 3)], [2], [], []⟩

/-- C5: in the convergence harness, the source stored in the parameter store
for each cell equals the manufactured right-hand-side function evaluated at
that cell's center multiplied by the cell's volume; the volume weighting is
applied by `add_data`, and the `Integral` discretizer returns the stored
vector unscaled. -/
theorem add_data_source_volume_weighted (g : Grid ℝ) (i : Nat)
    (hvol : g.cell_volumes.length = g.cell_centers.length)
    (hn : g.cell_centers.length = g.num_cells)
    (hi : i < g.num_cells) :
    (add_data_source g).getD i 0 =
      g.cell_volumes.getD i 0 *
        rhs (g.cell_centers.getD i (0, 0, 0)).1
          (g.cell_centers.getD i (0, 0, 0)).2.1
          (g.cell_centers.getD i (0, 0, 0)).2.2 ∧
    (Integral.mk "flow").matrix_rhs g (add_data g) =
      .ok (sps_csc_matrix ℝ (g.num_cells, g.num_cells), add_data_source g) := by
  have hc : i < g.cell_centers.length := hn ▸ hi
  have hv : i < g.cell_volumes.length := by rw [hvol]; exact hc
  have hlen : (add_data_source g).length = g.num_cells := by
    simp [add_data_source, List.length_zipWith, hvol, hn]
  constructor
  · have hi1 : i < (add_data_source g).length := by rw [hlen]; exact hi
    rw [List.getD_eq_getElem?_getD, List.getElem?_eq_getElem hi1, Option.getD_some,
      List.getD_eq_getElem?_getD, List.getElem?_eq_getElem hv, Option.getD_some,
      List.getD_eq_getElem?_getD, List.getElem?_eq_getElem hc, Option.getD_some]
    simp [add_data_source]
  · refine matrix_rhs_ok_of (Integral.mk "flow") g (add_data g) (add_data_source g)
      ?_ hlen
    simp [add_data, Parameters.get_source]

/-- Witness for C5 on a one-cell grid with center (1,2,3) and volume 2. -/
theorem add_data_source_volume_weighted_witness :
    (exGridC5.cell_volumes.length = exGridC5.cell_centers.length ∧
      exGridC5.cell_centers.length = exGridC5.num_cells ∧
      0 < exGridC5.num_cells) ∧
    ((add_data_source exGridC5).getD 0 0 =
      exGridC5.cell_volumes.getD 0 0 *
        rhs (exGridC5.cell_centers.getD 0 (0, 0, 0)).1
          (exGridC5.cell_centers.getD 0 (0, 0, 0)).2.1
          (exGridC5.cell_centers.getD 0 (0, 0, 0)).2.2 ∧
    (Integral.mk "flow").matrix_rhs exGridC5 (add_data exGridC5) =
      .ok (sps_csc_matrix ℝ (exGridC5.num_cells, exGridC5.num_cells),
        add_data_source exGridC5)) :=
  ⟨⟨rfl, rfl, Nat.zero_lt_one⟩,
    add_data_source_volume_weighted exGridC5 0 rfl rfl Nat.zero_lt_one⟩

/-! ## C6: `error_p` is the discrete L2 norm -/

/-- Shared helper: the numpy pipeline
`sum(power(abs(a - b), 2) * w)` over three equal-length lists equals the
index-wise finite sum. -/
theorem zipWith_abs_sq_mul_sum :
    ∀ (n : Nat) (a b w : List ℝ), a.length = n → b.length = n → w.length = n →
    (List.zipWith (fun x y => x * y)
      ((List.zipWith (fun x y => x - y) a b).map (fun d => |d| ^ 2)) w).sum =
      ∑ i ∈ Finset.range n, |a.getD i 0 - b.getD i 0| ^ 2 * w.getD i 0
  | 0, a, b, w, ha, _, _ => by
    cases a with
    | nil => simp
    | cons x a => simp at ha
  | (k + 1), a, b, w, ha, hb, hw => by
    cases a with
    | nil => simp at ha
    | cons x a =>
      cases b with
      | nil => simp at hb
      | cons y b =>
        cases w with
        | nil => simp at hw
        | cons v w =>
          simp only [List.length_cons, add_left_inj] at ha hb hw
          rw [Finset.sum_range_succ']
          simp only [List.zipWith_cons_cons, List.map_cons, List.sum_cons,
            List.getD_cons_succ, List.getD_cons_zero]
          rw [zipWith_abs_sq_mul_sum k a b w ha hb hw]
          ring

/-- C6: `error_p(g, p)` equals the square root of the sum over all cells of
the squared absolute difference between `p` and the manufactured solution at
the cell center, weighted by the cell volume (a discrete L2 norm). -/
theorem error_p_l2_norm (g : Grid ℝ) (p : List ℝ)
    (hp : p.length = g.num_cells)
    (hc : g.cell_centers.length = g.num_cells)
    (hv : g.cell_volumes.length = g.num_cells) :
    error_p g p = Real.sqrt (∑ i ∈ Finset.range g.num_cells,
      |p.getD i 0 - solution (g.cell_centers.getD i (0, 0, 0)).1
          (g.cell_centers.getD i (0, 0, 0)).2.1
          (g.cell_centers.getD i (0, 0, 0)).2.2| ^ 2 *
        g.cell_volumes.getD i 0) := by
  simp only [error_p]
  rw [zipWith_abs_sq_mul_sum g.num_cells p
    (g.cell_centers.map (fun pt => solution pt.1 pt.2.1 pt.2.2))
    g.cell_volumes hp (by simp [hc]) hv]
  congr 1
  refine Finset.sum_congr rfl (fun i hi => ?_)
  rw [Finset.mem_range] at hi
  have hci : i < g.cell_centers.length := hc ▸ hi
  have hmap : (g.cell_centers.map
      (fun pt => solution pt.1 pt.2.1 pt.2.2)).getD i 0 =
      solution (g.cell_centers.getD i (0, 0, 0)).1
        (g.cell_centers.getD i (0, 0, 0)).2.1
        (g.cell_centers.getD i (0, 0, 0)).2.2 := by
    rw [List.getD_eq_getElem?_getD, List.getD_eq_getElem?_getD,
      List.getElem?_eq_getElem (by simpa using hci),
      List.getElem?_eq_getElem hci]
    simp
  rw [hmap]

noncomputable def exGridC6 : Grid ℝ := ⟨1, 0, [(0, 1, 0)], [1], [], []⟩

/-- Witness for C6 on a one-cell grid. -/
theorem error_p_l2_norm_witness :
    (([2] : List ℝ).length = exGridC6.num_cells ∧
      exGridC6.cell_centers.length = exGridC6.num_cells ∧
      exGridC6.cell_volumes.length = exGridC6.num_cells) ∧
    error_p exGridC6 [2] = Real.sqrt (∑ i ∈ Finset.range exGridC6.num_cells,
      |([2] : List ℝ).getD i 0 -
          solution (exGridC6.cell_centers.getD i (0, 0, 0)).1
            (exGridC6.cell_centers.getD i (0, 0, 0)).2.1
            (exGridC6.cell_centers.getD i (0, 0, 0)).2.2| ^ 2 *
        exGridC6.cell_volumes.getD i 0) :=
  ⟨⟨rfl, rfl, rfl⟩, error_p_l2_norm exGridC6 [2] rfl rfl rfl⟩

/-! ## C7: Dirichlet boundary data -/

/-- Shared helper: a fold of point updates leaves untouched the positions
whose index is assigned by no pair. -/
theorem foldl_set_getD_of_not_mem {α : Type} :
    ∀ (ps : List (Nat × α)) (init : List α) (i : Nat) (d : α),
      i ∉ ps.map Prod.fst →
      (ps.foldl (fun l q => l.set q.1 q.2) init).getD i d = init.getD i d
  | [], _, _, _, _ => rfl
  | q :: ps, init, i, d, hi => by
    simp only [List.map_cons, List.mem_cons, not_or] at hi
    rw [List.foldl_cons, foldl_set_getD_of_not_mem ps (init.set q.1 q.2) i d hi.2,
      List.getD_eq_getElem?_getD, List.getD_eq_getElem?_getD,
      List.getElem?_set_ne (fun h => hi.1 h.symm)]

/-- Shared helper: when the assigned indices are pairwise distinct and in
range, a fold of point updates stores each pair's value at its index. -/
theorem foldl_set_getD_of_mem {α : Type} :
    ∀ (ps : List (Nat × α)) (init : List α) (i : Nat) (v d : α),
      (ps.map Prod.fst).Nodup → (i, v) ∈ ps → i < init.length →
      (ps.foldl (fun l q => l.set q.1 q.2) init).getD i d = v
  | [], _, _, _, _, _, hmem, _ => absurd hmem (List.not_mem_nil _)
  | (a, b) :: ps, init, i, v, d, hnd, hmem, hi => by
    simp only [List.map_cons, List.nodup_cons] at hnd
    rw [List.foldl_cons]
    rcases List.mem_cons.mp hmem with h | h
    · rw [Prod.mk.injEq] at h
      obtain ⟨h1, h2⟩ := h
      subst h1
      subst h2
      rw [foldl_set_getD_of_not_mem ps (init.set i v) i d hnd.1,
        List.getD_eq_getElem?_getD, List.getElem?_set_self hi, Option.getD_some]
    · exact foldl_set_getD_of_mem ps (init.set a b) i v d hnd.2 h
        (by rw [List.length_set]; exact hi)

/-- Shared helper: zipping a list with its own image under `f` lists the
pairs `(j, f j)`. -/
theorem zip_self_map {α β : Type} (l : List α) (f : α → β) :
    l.zip (l.map f) = l.map (fun j => (j, f j)) := by
  induction l with
  | nil => rfl
  | cons x l ih => rw [List.map_cons, List.zip_cons_cons, ih, List.map_cons]

/-- C7: in the convergence harness, every boundary face is labelled
Dirichlet (`'dir'`), and the boundary-value vector holds the manufactured
solution at each boundary face's center and zero at every other face. -/
theorem add_data_bc_dirichlet (g : Grid ℝ)
    (hnd : g.boundary_faces.Nodup)
    (hbf : ∀ i ∈ g.boundary_faces, i < g.num_faces) :
    (∀ l ∈ add_data_labels g, l = "dir") ∧
    (add_data_labels g).length = g.boundary_faces.length ∧
    (∀ i ∈ g.boundary_faces,
      (add_data_bc_val g).getD i 0 =
        solution (g.face_centers.getD i (0, 0, 0)).1
          (g.face_centers.getD i (0, 0, 0)).2.1
          (g.face_centers.getD i (0, 0, 0)).2.2) ∧
    (∀ i, i < g.num_faces → i ∉ g.boundary_faces →
      (add_data_bc_val g).getD i 0 = 0) := by
  refine ⟨fun l hl => List.eq_of_mem_replicate hl, by simp [add_data_labels],
    ?_, ?_⟩
  · intro i hi
    simp only [add_data_bc_val]
    rw [foldl_set_getD_of_mem _ _ i _ 0 ?_ ?_ ?_]
    · rw [zip_self_map]
      have := List.map_fst_zip g.boundary_faces
        (g.boundary_faces.map (fun j =>
          solution (g.face_centers.getD j (0, 0, 0)).1
            (g.face_centers.getD j (0, 0, 0)).2.1
            (g.face_centers.getD j (0, 0, 0)).2.2))
        (by simp)
      rw [zip_self_map] at this
      rw [this]
      exact hnd
    · rw [zip_self_map]
      exact List.mem_map_of_mem _ hi
    · rw [List.length_replicate]
      exact hbf i hi
  · intro i hif hib
    simp only [add_data_bc_val]
    rw [foldl_set_getD_of_not_mem]
    · rw [List.getD_eq_getElem?_getD, List.getElem?_replicate]
      split
      · rfl
      · rfl
    · rw [zip_self_map]
      intro hmem
      rw [List.map_map] at hmem
      apply hib
      simpa using hmem

noncomputable def exGridC7 : Grid ℝ :=
  ⟨0, 3, [], [], [(0, 0, 0), (1, 0, 0), (2, 0, 0)], [0, 2]⟩

/-- Witness for C7 on a grid with three faces of which faces 0 and 2 are
boundary faces. -/
theorem add_data_bc_dirichlet_witness :
    (exGridC7.boundary_faces.Nodup ∧
      ∀ i ∈ exGridC7.boundary_faces, i < exGridC7.num_faces) ∧
    ((∀ l ∈ add_data_labels exGridC7, l = "dir") ∧
    (add_data_labels exGridC7).length = exGridC7.boundary_faces.length ∧
    (∀ i ∈ exGridC7.boundary_faces,
      (add_data_bc_val exGridC7).getD i 0 =
        solution (exGridC7.face_centers.getD i (0, 0, 0)).1
          (exGridC7.face_centers.getD i (0, 0, 0)).2.1
          (exGridC7.face_centers.getD i (0, 0, 0)).2.2) ∧
    (∀ i, i < exGridC7.num_faces → i ∉ exGridC7.boundary_faces →
      (add_data_bc_val exGridC7).getD i 0 = 0)) :=
  ⟨⟨by decide, by decide⟩,
    add_data_bc_dirichlet exGridC7 (by decide) (by decide)⟩
